import Mathlib

/-!
Verification development for the request-construction and hook-dispatch
pipeline of `src/builder/client.ts` (a declarative builder for typed HTTP API
clients).  The definitions below are a shallow embedding of that file: pure
helpers become Lean functions, the per-call async closure becomes an explicit
pipeline function fed the transport response as data, and JS dynamic values
are modelled by a small inductive of the value kinds the pipeline actually
distinguishes (truthiness, passthrough body kinds, encoders compared by
function identity).
-/

namespace ClientTs

/-- JS primitive values, usable as object fields and query-parameter values. -/
inductive JsAtom where
  | str (s : String)
  | num (n : Int)
  | bool (b : Bool)
  | null
deriving DecidableEq

/-- JS values flowing through the pipeline (request bodies in particular).
Plain objects are modelled one level deep (fields hold primitive values),
which covers everything the pipeline distinguishes about a body: truthiness,
the passthrough check, and being fed to an encoder. -/
inductive JsValue where
  | undef
  | null
  | str (s : String)
  | num (n : Int)
  | bool (b : Bool)
  | obj (fields : List (String × JsAtom))
  | readableStream (id : Nat)
  | formData (id : Nat)
  | arrayBuffer (id : Nat)
  | urlSearchParams (id : Nat)
deriving DecidableEq

/-- JS truthiness of a value, as used by `body ? ... : undefined`
(client.ts line 92). -/
def truthy : JsValue → Bool
  | .undef => false
  | .null => false
  | .str s => !s.data.isEmpty
  | .num n => n != 0
  | .bool b => b
  | .obj _ => true
  | .readableStream _ => true
  | .formData _ => true
  | .arrayBuffer _ => true
  | .urlSearchParams _ => true

/-- The passthrough test of client.ts lines 94-98: strings, streams, form
data, array buffers and URL-search-params are sent to the transport without
encoding. -/
def isPassthrough : JsValue → Bool
  | .str _ => true
  | .readableStream _ => true
  | .formData _ => true
  | .arrayBuffer _ => true
  | .urlSearchParams _ => true
  | _ => false

def jsonAtom : JsAtom → String
  | .str s => "\"" ++ s ++ "\""
  | .num n => toString n
  | .bool b => if b then "true" else "false"
  | .null => "null"

/-- Behaviour of the default `JSON.stringify` encoder on the modelled values. -/
def jsonStringify : JsValue → String
  | .undef => "undefined"
  | .null => "null"
  | .str s => "\"" ++ s ++ "\""
  | .num n => toString n
  | .bool b => if b then "true" else "false"
  | .obj fields =>
      "\x7b" ++ String.intercalate ","
        (fields.map (fun f => "\"" ++ f.1 ++ "\":" ++ jsonAtom f.2)) ++ "\x7d"
  | .readableStream _ => "\x7b\x7d"
  | .formData _ => "\x7b\x7d"
  | .arrayBuffer _ => "\x7b\x7d"
  | .urlSearchParams _ => "\x7b\x7d"

/-- JS `value.toString()` for query-parameter values (client.ts line 77). -/
def jsAtomToString : JsAtom → String
  | .str s => s
  | .num n => toString n
  | .bool b => if b then "true" else "false"
  | .null => "null"

/-- JS objects used as header maps: ordered key-value lists.  JS objects have
unique keys, so lookup takes the first binding. -/
abbrev Headers := List (String × String)

def hlookup : Headers → String → Option String
  | [], _ => none
  | (k, v) :: rest, key => if k == key then some v else hlookup rest key

/-- JS object spread of two string-keyed maps (`mergeObjects`, client.ts
lines 152-157): keys of `a` keep their position with values overridden by
`b`; keys only in `b` are appended in order. -/
def mergeHeaders (a b : Headers) : Headers :=
  a.map (fun p => (p.1, (hlookup b p.1).getD p.2))
    ++ b.filter (fun p => (hlookup a p.1).isNone)

/-- JS object spread applied to two ARRAYS of hooks (client.ts line 204
spreads the two hook arrays as objects): numeric keys merge index-wise, the
second array's entries overriding the first's at equal indices, longer tail
kept.  Hooks are referenced by id. -/
def mergeHookLists : List Nat → List Nat → List Nat
  | a, [] => a
  | [], b => b
  | _ :: as, b :: bs => b :: mergeHookLists as bs

/-- An encoder value carried by a request.  The source compares the active
encoder against the `JSON.stringify` function object by reference
(client.ts line 82); function identity of the default is modelled by a
dedicated constructor. -/
inductive Encoder where
  | defaultJson
  | custom (f : JsValue → String)

def isDefaultEncoder : Encoder → Bool
  | .defaultJson => true
  | .custom _ => false

def applyEncoder : Encoder → JsValue → String
  | .defaultJson, v => jsonStringify v
  | .custom f, v => f v

/-- JS exception values seen by the pipeline.  `raw` is an ordinary thrown
exception (for decode failures, the parse error raised by `res.json()` or a
custom decoder).  `decodeError` is the wrapper the specification calls
`DecodeError`; the source never constructs one (its catch block rethrows the
original exception), so this constructor exists only to state the spec's
claim for comparison. -/
inductive JsError where
  | raw (msg : String)
  | decodeError (inner : JsError)
deriving DecidableEq

/-- A decoder value carried by a request; same function-identity modelling as
`Encoder` (client.ts line 108 compares against `JSON.parse`). -/
inductive Decoder where
  | defaultJson
  | custom (f : String → Except JsError JsValue)

def isDefaultDecoder : Decoder → Bool
  | .defaultJson => true
  | .custom _ => false

inductive RouteError where
  | invalidMethod (method route : String)
deriving DecidableEq

structure MethodPath where
  method : String
  path : Option String
deriving DecidableEq

/-- Split a character list at every space, keeping empty segments, as JS
`split(" ")` does (an accumulator-passing rendering). -/
def splitSpaces : List Char → List Char → List (List Char)
  | [], acc => [acc.reverse]
  | c :: rest, acc =>
    if c == ' ' then acc.reverse :: splitSpaces rest []
    else splitSpaces rest (c :: acc)

/-- JS `route.split(" ", 2)` (client.ts line 137): split at spaces and
truncate the RESULT to its first two tokens (the JS limit argument drops
everything after the second token; it does not keep a remainder). -/
def jsSplit2 (s : String) : List String :=
  ((splitSpaces s.data []).map String.mk).take 2

/-- JS `toUpperCase()` restricted to the ASCII mapping. -/
def jsToUpper (s : String) : String :=
  String.mk (s.data.map Char.toUpper)

/-- Translation of `decodeRoute` (client.ts lines 136-150).  The thrown
`Invalid HTTP method` error becomes the `invalidMethod` constructor carrying
the (uppercased) token and the full route string. -/
def decodeRoute (method : Option String) (route : String) :
    Except RouteError MethodPath :=
  let tokens := jsSplit2 route
  if tokens.length == 1 && method.isNone then
    .ok ⟨method.getD "GET", some route⟩
  else
    let m := jsToUpper (tokens.headD "")
    if ["GET", "POST", "PUT", "DELETE", "PATCH"].contains m then
      .ok ⟨m, tokens.get? 1⟩
    else
      .error (.invalidMethod m route)

/-- The Request value of one pending call (types/http `Request` as consumed by
client.ts).  Hooks are referenced by id into an ambient environment, mirroring
the JS references to hook objects. -/
structure Request where
  method : Option String
  path : Option String
  baseUrl : String
  headers : Headers
  queryParameters : List (String × JsAtom)
  body : JsValue
  encoder : Option Encoder
  decoder : Option Decoder
  timeout : Option Nat
  abortSignal : Option Nat
  hookIds : List Nat

/-- A `Partial<Request>`: `some` marks a field present in the partial. -/
structure PartialRequest where
  method : Option String := none
  path : Option String := none
  baseUrl : Option String := none
  headers : Option Headers := none
  queryParameters : Option (List (String × JsAtom)) := none
  body : Option JsValue := none
  encoder : Option Encoder := none
  decoder : Option Decoder := none
  timeout : Option Nat := none
  abortSignal : Option Nat := none
  hookIds : Option (List Nat) := none

/-- Translation of `Request.merge` (client.ts lines 198-207): an object spread
of the receiver and the partial (present fields of the partial replace the
receiver's), after which the headers and hooks fields are re-merged with
`mergeObjects` instead of being replaced. -/
def mergeReq (r : Request) (p : PartialRequest) : Request :=
  { method := p.method.orElse fun _ => r.method
    path := p.path.orElse fun _ => r.path
    baseUrl := p.baseUrl.getD r.baseUrl
    headers := match p.headers with
      | some h => mergeHeaders r.headers h
      | none => r.headers
    queryParameters := p.queryParameters.getD r.queryParameters
    body := p.body.getD r.body
    encoder := p.encoder.orElse fun _ => r.encoder
    decoder := p.decoder.orElse fun _ => r.decoder
    timeout := p.timeout.orElse fun _ => r.timeout
    abortSignal := p.abortSignal.orElse fun _ => r.abortSignal
    hookIds := match p.hookIds with
      | some hs => mergeHookLists r.hookIds hs
      | none => r.hookIds }

/-- State-passing view of the `merge` method call: the pair is (receiver state
after the call, returned Request).  The JS method body only reads `this` (it
spreads it into a fresh object and assigns onto that fresh object), so the
receiver state comes back unchanged. -/
def mergeOp (r : Request) (p : PartialRequest) : Request × Request :=
  (r, mergeReq r p)

/-- The Result of a completed call (client.ts lines 114-118). -/
structure Result where
  headers : Headers
  statusCode : Nat
  data : JsValue
deriving DecidableEq

/-- A hook: optional before/after capabilities (types/builder `Hook`). -/
structure Hook where
  beforeRequest : Option (Request → Request) := none
  afterRequest : Option (Request → Result → Result) := none

/-- Global options after the `?? []` / `?? \x7b\x7d` defaulting of client.ts
lines 7-11. -/
structure GlobalOptions where
  hookIds : List Nat := []
  headers : Headers := []
  timeout : Option Nat := none

/-- One resource's configuration after the defaulting of client.ts
lines 14-18.  `prefix` is a reserved word here, hence `rootPath`. -/
structure ResourceConfig where
  rootPath : Option String := none
  hookIds : List Nat := []
  headers : Headers := []
  timeout : Option Nat := none

/-- A structured route descriptor (`PureRoute`): the spec's record
`\x7bmethod?, route, headers?, timeout?, body?, queryParameters?, hooks?\x7d`,
spread wholesale into the request by client.ts line 40 (so encoder/decoder
fields, if ever present, would pass through too). -/
structure StructuredRoute where
  method : Option String := none
  route : String
  headers : Option Headers := none
  timeout : Option Nat := none
  body : JsValue := .undef
  queryParameters : Option (List (String × JsAtom)) := none
  hookIds : Option (List Nat) := none
  encoder : Option Encoder := none
  decoder : Option Decoder := none

/-- The value returned by a route's `_constructor`: a bare string or a
structured descriptor (client.ts lines 26-27). -/
inductive RouteResult where
  | stringRoute (route : String)
  | structured (r : StructuredRoute)

/-- client.ts lines 20-23: the headers every request of a resource starts
from. -/
def resourceStandardHeaders (g : GlobalOptions) (res : ResourceConfig) : Headers :=
  mergeHeaders g.headers res.headers

/-- The initial Request built for one invocation (client.ts lines 26-49):
string routes get the JSON defaults explicitly; structured descriptors are
spread and then given merged headers, their own method (falling back to the
decoded one), the decoded path, and the layered timeout. -/
def initialRequest (baseUrl : String) (g : GlobalOptions) (res : ResourceConfig)
    (rr : RouteResult) : Except RouteError Request :=
  match rr with
  | .stringRoute s =>
    (decodeRoute none s).map fun mp =>
      { method := some mp.method
        path := mp.path
        baseUrl := baseUrl
        headers := resourceStandardHeaders g res
        queryParameters := []
        body := .undef
        encoder := some .defaultJson
        decoder := some .defaultJson
        timeout := res.timeout.orElse fun _ => g.timeout
        abortSignal := none
        hookIds := [] }
  | .structured sr =>
    (decodeRoute sr.method sr.route).map fun mp =>
      { method := some (sr.method.getD mp.method)
        path := mp.path
        baseUrl := baseUrl
        headers := mergeHeaders (resourceStandardHeaders g res) (sr.headers.getD [])
        queryParameters := sr.queryParameters.getD []
        body := sr.body
        encoder := sr.encoder
        decoder := sr.decoder
        timeout := sr.timeout.orElse fun _ => res.timeout.orElse fun _ => g.timeout
        abortSignal := none
        hookIds := sr.hookIds.getD [] }

/-- The before-request loop (client.ts lines 55-59) over a FIXED id list:
each hook with the capability replaces the working request with its return
value; the second component records the ids actually executed, in order. -/
def runBeforeTrace (env : Nat → Hook) : List Nat → Request → Request × List Nat
  | [], req => (req, [])
  | i :: ids, req =>
    match (env i).beforeRequest with
    | some f =>
      let rest := runBeforeTrace env ids (f req)
      (rest.1, i :: rest.2)
    | none => runBeforeTrace env ids req

/-- The after-request loop (client.ts lines 120-127), folding the working
Result through the same FIXED id list, each hook receiving the final request
and the current result. -/
def runAfterTrace (env : Nat → Hook) (fr : Request) : List Nat → Result → Result × List Nat
  | [], r => (r, [])
  | i :: ids, r =>
    match (env i).afterRequest with
    | some f =>
      let rest := runAfterTrace env fr ids (f fr r)
      (rest.1, i :: rest.2)
    | none => runAfterTrace env fr ids r

/-- The cancellation value handed to fetch. -/
inductive SignalChoice where
  | explicitSig (sig : Nat)
  | timeoutSig (ms : Nat)
  | noSignal
deriving DecidableEq

/-- The arguments the transport (`fetch`) is invoked with
(client.ts lines 90-103). -/
structure FetchArgs where
  url : String
  method : String
  body : Option JsValue
  headers : Headers
  signal : SignalChoice
deriving DecidableEq

/-- JS string concatenation coerces `undefined` to the text "undefined". -/
def jsCoerceString : Option String → String
  | some s => s
  | none => "undefined"

/-- URL construction (client.ts lines 68-79): baseUrl, then the resource
prefix, then the path, then the query parameters in insertion order.
Printing a well-formed absolute URL is modelled as plain concatenation. -/
def buildUrl (req : Request) (rootPath : Option String) : String :=
  let fullPath := req.baseUrl ++ rootPath.getD "" ++ jsCoerceString req.path
  match req.queryParameters with
  | [] => fullPath
  | qs => fullPath ++ "?" ++
      String.intercalate "&" (qs.map fun q => q.1 ++ "=" ++ jsAtomToString q.2)

/-- client.ts lines 81-88: after the hook chain, if the active encoder is
still (reference-equal to) `JSON.stringify` and no Content-Type header is
present, the request is replaced by a merge adding
`Content-Type: application/json`. -/
def injectContentType (r : Request) : Request :=
  if isDefaultEncoder (r.encoder.getD .defaultJson)
      && (hlookup r.headers "Content-Type").isNone then
    mergeReq r { headers := some [("Content-Type", "application/json")] }
  else r

/-- client.ts lines 92-99: a falsy body sends nothing (`body ?`); a truthy
passthrough body is sent as-is; any other truthy body goes through the
active encoder. -/
def transportBody (r : Request) : Option JsValue :=
  if truthy r.body then
    some (if isPassthrough r.body then r.body
          else .str (applyEncoder (r.encoder.getD .defaultJson) r.body))
  else none

/-- client.ts lines 101-103:
`request.abortSignal ?? (request.timeout ? AbortSignal.timeout(..) : undefined)`.
The `request.timeout ?` test is JS truthiness, so a timeout of 0 synthesizes
no signal. -/
def transportSignal (r : Request) : SignalChoice :=
  match r.abortSignal with
  | some s => .explicitSig s
  | none =>
    match r.timeout with
    | some t => if t == 0 then .noSignal else .timeoutSig t
    | none => .noSignal

/-- The transport invocation built from the request produced by the
before-hooks (client.ts lines 61-103), paired with the request as it stands
after the Content-Type injection.  Faithful to the source's dataflow: method,
body, url and HEADERS come from the locals captured at lines 61-66 (and the
URL built at line 74), all BEFORE the injection at lines 82-88 reassigns
`request`; only the signal (lines 101-103) reads the reassigned request. -/
def makeFetchArgs (request1 : Request) (res : ResourceConfig) : FetchArgs × Request :=
  let request2 := injectContentType request1
  ({ url := buildUrl request1 res.rootPath
     method := request1.method.getD "GET"
     body := transportBody request1
     headers := request1.headers
     signal := transportSignal request2 }, request2)

/-- The fetch Response collaborator: its `.json()` and `.text()` outcomes are
supplied as data (the transport is an external collaborator). -/
structure FetchResponse where
  headers : Headers
  status : Nat
  text : String
  json : Except JsError JsValue

/-- client.ts lines 108-110: the default decoder uses `res.json()`; any other
decoder gets `res.text()`.  The catch at lines 111-113 rethrows the exception
unchanged, so a failure propagates as the original error value. -/
def decodeResponse (dec : Decoder) (res : FetchResponse) : Except JsError JsValue :=
  match dec with
  | .defaultJson => res.json
  | .custom f => f res.text

/-- Everything observable about one call: the fixed hook list, the transport
invocation, the request after Content-Type injection (which the after-hooks
receive), the executed-hook traces of both phases, and the final outcome
(`error` = the call rejects with that exception; no Result is produced and no
after-hook runs). -/
structure CallOutcome where
  hookList : List Nat
  fetchArgs : FetchArgs
  finalRequest : Request
  beforeTrace : List Nat
  afterTrace : List Nat
  result : Except JsError Result

/-- The body of the bound route method from the initial request on
(client.ts lines 51-127). -/
def runCall (env : Nat → Hook) (g : GlobalOptions) (res : ResourceConfig)
    (response : FetchResponse) (req0 : Request) : CallOutcome :=
  let hookList := g.hookIds ++ res.hookIds ++ req0.hookIds
  let bt := runBeforeTrace env hookList req0
  let fa := makeFetchArgs bt.1 res
  match decodeResponse (bt.1.decoder.getD .defaultJson) response with
  | .error e =>
    { hookList := hookList, fetchArgs := fa.1, finalRequest := fa.2
      beforeTrace := bt.2, afterTrace := [], result := .error e }
  | .ok v =>
    let ar := runAfterTrace env fa.2 hookList ⟨response.headers, response.status, v⟩
    { hookList := hookList, fetchArgs := fa.1, finalRequest := fa.2
      beforeTrace := bt.2, afterTrace := ar.2, result := .ok ar.1 }

/-- One invocation of a bound route method (client.ts lines 25-128), given
the route constructor's result and the transport's response. -/
def call (env : Nat → Hook) (baseUrl : String) (g : GlobalOptions)
    (res : ResourceConfig) (rr : RouteResult) (response : FetchResponse) :
    Except RouteError CallOutcome :=
  (initialRequest baseUrl g res rr).map (runCall env g res response)

/-- The transport invocation of a call, when route decoding succeeds. -/
def callFetchArgs (env : Nat → Hook) (baseUrl : String) (g : GlobalOptions)
    (res : ResourceConfig) (rr : RouteResult) (response : FetchResponse) :
    Option FetchArgs :=
  (call env baseUrl g res rr response).toOption.map fun o => o.fetchArgs

/-- The value of one header in the headers the transport is invoked with. -/
def callSentHeader (env : Nat → Hook) (baseUrl : String) (g : GlobalOptions)
    (res : ResourceConfig) (rr : RouteResult) (response : FetchResponse)
    (key : String) : Option (Option String) :=
  (call env baseUrl g res rr response).toOption.map fun o =>
    hlookup o.fetchArgs.headers key

/-- The value of one header on the final (post-injection) request. -/
def callFinalHeader (env : Nat → Hook) (baseUrl : String) (g : GlobalOptions)
    (res : ResourceConfig) (rr : RouteResult) (response : FetchResponse)
    (key : String) : Option (Option String) :=
  (call env baseUrl g res rr response).toOption.map fun o =>
    hlookup o.finalRequest.headers key

/-- The outcome (rejection or final Result) of a call. -/
def callResultE (env : Nat → Hook) (baseUrl : String) (g : GlobalOptions)
    (res : ResourceConfig) (rr : RouteResult) (response : FetchResponse) :
    Option (Except JsError Result) :=
  (call env baseUrl g res rr response).toOption.map fun o => o.result

/-- An environment with no hooks installed. -/
def env0 : Nat → Hook := fun _ => {}

/-- A response whose body parses fine under the default decoder. -/
def okResponse : FetchResponse :=
  { headers := [], status := 200, text := "\x7b\x7d", json := .ok (.obj []) }

/-- The spec's end-to-end scenario: route "POST /users" with body
\x7b"name":"a"\x7d. -/
def c1Route : RouteResult :=
  .structured { route := "POST /users", body := .obj [("name", .str "a")] }

/-- A response whose body fails to parse: `res.json()` raises. -/
def c3Response : FetchResponse :=
  { headers := [], status := 200, text := "not json"
    json := .error (.raw "Unexpected token") }

/-- The initial request the pipeline builds for the bare route "/x" under
empty configuration (written out for use as a concrete witness input). -/
def bareRequest (baseUrl : String) : Request :=
  { method := some "GET", path := some "/x", baseUrl := baseUrl, headers := []
    queryParameters := [], body := .undef, encoder := some .defaultJson
    decoder := some .defaultJson, timeout := none, abortSignal := none
    hookIds := [] }

/-- Concrete outcome of a call whose response fails to decode. -/
def c3Outcome : CallOutcome :=
  runCall env0 {} {} c3Response (bareRequest "http://h")

/-- A structured descriptor carrying a request-level timeout of 0. -/
def c7Route : RouteResult := .structured { route := "GET /x", timeout := some 0 }

/-- Global options with a timeout, for the C7 witness. -/
def g7 : GlobalOptions := { timeout := some 7 }

/-- Initial request of the bare route "/x" when the global timeout is 7. -/
def req7 : Request := { bareRequest "http://h" with timeout := some 7 }

/-- Concrete outcome for the C7 witness. -/
def o7 : CallOutcome := runCall env0 g7 {} okResponse req7

/-- A receiver Request for the merge claims, carrying two hooks. -/
def c8r : Request :=
  { method := some "GET", path := some "/x", baseUrl := "http://h"
    headers := [("A", "1")], queryParameters := [], body := .undef
    encoder := none, decoder := none, timeout := none, abortSignal := none
    hookIds := [1, 2] }

/-- A structured descriptor whose body is the empty string: a raw-text
passthrough kind that is nevertheless falsy. -/
def c9Route : RouteResult := .structured { route := "POST /x", body := .str "" }

/-- Initial request of the C9 witness descriptor (body "hello"). -/
def req9 : Request :=
  { method := some "POST", path := some "/x", baseUrl := "http://h", headers := []
    queryParameters := [], body := .str "hello", encoder := none, decoder := none
    timeout := none, abortSignal := none, hookIds := [] }

/-- Concrete outcome for the C9 witness. -/
def o9 : CallOutcome := runCall env0 {} {} okResponse req9

/-- Hook environment for the order witness: hook 1 adds a header in the
before phase, hook 2 bumps the status code in the after phase. -/
def envH : Nat → Hook := fun i =>
  if i = 1 then
    { beforeRequest := some fun r => mergeReq r { headers := some [("X", "1")] } }
  else if i = 2 then
    { afterRequest := some fun _ r => { r with statusCode := r.statusCode + 1 } }
  else {}

def gH : GlobalOptions := { hookIds := [1] }

def resH : ResourceConfig := { hookIds := [2] }

/-- Concrete outcome for the C6 witness. -/
def oH : CallOutcome := runCall envH gH resH okResponse (bareRequest "http://h")

/-- Hook environment for the fixed-hook-set witness: hook 5's beforeRequest
returns a request that carries a brand-new hook id 99. -/
def envX : Nat → Hook := fun i =>
  if i = 5 then { beforeRequest := some fun r => { r with hookIds := [99] } }
  else {}

def gX : GlobalOptions := { hookIds := [5] }

/-- Concrete outcome for the C10 witness. -/
def oX : CallOutcome := runCall envX gX {} okResponse (bareRequest "http://h")

/-! ## Helper lemmas -/

theorem hlookup_map_override (b : Headers) (k : String) :
    ∀ a : Headers,
      hlookup (a.map fun p => (p.1, (hlookup b p.1).getD p.2)) k
        = (hlookup a k).map fun v => (hlookup b k).getD v
  | [] => rfl
  | (k0, v0) :: rest => by
    cases h : k0 == k with
    | true =>
      have hk : k0 = k := eq_of_beq h
      subst hk
      simp [hlookup]
    | false =>
      simp [hlookup, h, hlookup_map_override b k rest]

theorem hlookup_append (k : String) :
    ∀ xs ys : Headers,
      hlookup (xs ++ ys) k = (hlookup xs k).orElse fun _ => hlookup ys k
  | [], ys => rfl
  | (k0, v0) :: rest, ys => by
    cases h : k0 == k with
    | true => simp [hlookup, h, Option.orElse]
    | false => simp [hlookup, h, hlookup_append k rest ys]

theorem hlookup_filter_none (a : Headers) (k : String) (ha : hlookup a k = none) :
    ∀ b : Headers,
      hlookup (b.filter fun p => (hlookup a p.1).isNone) k = hlookup b k
  | [] => rfl
  | (k0, v0) :: rest => by
    cases h : k0 == k with
    | true =>
      have hk : k0 = k := eq_of_beq h
      subst hk
      simp [List.filter, hlookup, ha]
    | false =>
      cases hkeep : (hlookup a k0).isNone <;>
        simp [List.filter, hkeep, hlookup, h, hlookup_filter_none a k ha rest]

theorem hlookup_filter_some (a : Headers) (k : String) (v : String)
    (ha : hlookup a k = some v) :
    ∀ b : Headers,
      hlookup (b.filter fun p => (hlookup a p.1).isNone) k = none
  | [] => rfl
  | (k0, v0) :: rest => by
    cases h : k0 == k with
    | true =>
      have hk : k0 = k := eq_of_beq h
      subst hk
      simp [List.filter, hlookup, ha, hlookup_filter_some a k0 v ha rest]
    | false =>
      cases hkeep : (hlookup a k0).isNone <;>
        simp [List.filter, hkeep, hlookup, h, hlookup_filter_some a k v ha rest]

/-- Lookup through a JS object spread: the second map wins, the first is the
fallback. -/
theorem hlookup_mergeHeaders (a b : Headers) (k : String) :
    hlookup (mergeHeaders a b) k = (hlookup b k).orElse fun _ => hlookup a k := by
  unfold mergeHeaders
  rw [hlookup_append, hlookup_map_override]
  cases ha : hlookup a k with
  | none =>
    rw [hlookup_filter_none a k ha b]
    cases hb : hlookup b k <;> simp [Option.orElse]
  | some v =>
    rw [hlookup_filter_some a k v ha b]
    cases hb : hlookup b k <;> simp [Option.orElse]

/-- Index-wise characterisation of the spread of two hook arrays. -/
theorem mergeHookLists_get :
    ∀ (a b : List Nat) (i : Nat),
      (mergeHookLists a b).get? i = (b.get? i).orElse fun _ => a.get? i
  | [], [], _ => rfl
  | [], y :: bs, i => by
    cases hb : (y :: bs).get? i with
    | none => rw [show mergeHookLists [] (y :: bs) = y :: bs from rfl, hb]; rfl
    | some v => rw [show mergeHookLists [] (y :: bs) = y :: bs from rfl, hb]; rfl
  | x :: as, [], i => rfl
  | x :: as, y :: bs, i => by
    cases i with
    | zero => rfl
    | succ n => exact mergeHookLists_get as bs n

/-- The before-phase trace lists exactly the hooks with the capability, in
list order, independently of the request being threaded. -/
theorem runBeforeTrace_trace (env : Nat → Hook) :
    ∀ (ids : List Nat) (req : Request),
      (runBeforeTrace env ids req).2
        = ids.filter fun i => (env i).beforeRequest.isSome
  | [], _ => rfl
  | i :: ids, req => by
    cases h : (env i).beforeRequest with
    | none => simp [runBeforeTrace, h, List.filter, runBeforeTrace_trace env ids req]
    | some f => simp [runBeforeTrace, h, List.filter, runBeforeTrace_trace env ids (f req)]

/-- The before phase over a concatenation is the sequential composition of
the phases over the parts. -/
theorem runBeforeTrace_fst_append (env : Nat → Hook) :
    ∀ (xs ys : List Nat) (req : Request),
      (runBeforeTrace env (xs ++ ys) req).1
        = (runBeforeTrace env ys (runBeforeTrace env xs req).1).1
  | [], _, _ => rfl
  | i :: xs, ys, req => by
    cases h : (env i).beforeRequest with
    | none => simp [runBeforeTrace, h, runBeforeTrace_fst_append env xs ys req]
    | some f => simp [runBeforeTrace, h, runBeforeTrace_fst_append env xs ys (f req)]

/-- The after-phase trace lists exactly the hooks with the capability, in the
same (not reversed) list order, independently of the result being threaded. -/
theorem runAfterTrace_trace (env : Nat → Hook) (fr : Request) :
    ∀ (ids : List Nat) (r : Result),
      (runAfterTrace env fr ids r).2
        = ids.filter fun i => (env i).afterRequest.isSome
  | [], _ => rfl
  | i :: ids, r => by
    cases h : (env i).afterRequest with
    | none => simp [runAfterTrace, h, List.filter, runAfterTrace_trace env fr ids r]
    | some f => simp [runAfterTrace, h, List.filter, runAfterTrace_trace env fr ids (f fr r)]

/-- The after phase over a concatenation is the sequential composition of the
phases over the parts. -/
theorem runAfterTrace_fst_append (env : Nat → Hook) (fr : Request) :
    ∀ (xs ys : List Nat) (r : Result),
      (runAfterTrace env fr (xs ++ ys) r).1
        = (runAfterTrace env fr ys (runAfterTrace env fr xs r).1).1
  | [], _, _ => rfl
  | i :: xs, ys, r => by
    cases h : (env i).afterRequest with
    | none => simp [runAfterTrace, h, runAfterTrace_fst_append env fr xs ys r]
    | some f => simp [runAfterTrace, h, runAfterTrace_fst_append env fr xs ys (f fr r)]

/-- The Content-Type injection merges a headers-only partial, so every other
request field survives it unchanged. -/
theorem injectContentType_fields (r : Request) :
    (injectContentType r).method = r.method ∧
    (injectContentType r).path = r.path ∧
    (injectContentType r).baseUrl = r.baseUrl ∧
    (injectContentType r).queryParameters = r.queryParameters ∧
    (injectContentType r).body = r.body ∧
    (injectContentType r).encoder = r.encoder ∧
    (injectContentType r).decoder = r.decoder ∧
    (injectContentType r).timeout = r.timeout ∧
    (injectContentType r).abortSignal = r.abortSignal ∧
    (injectContentType r).hookIds = r.hookIds := by
  unfold injectContentType
  split
  · refine ⟨?_, ?_, ?_, ?_, ?_, ?_, ?_, ?_, ?_, ?_⟩ <;> rfl
  · refine ⟨?_, ?_, ?_, ?_, ?_, ?_, ?_, ?_, ?_, ?_⟩ <;> rfl

theorem runCall_hookList (env : Nat → Hook) (g : GlobalOptions) (res : ResourceConfig)
    (response : FetchResponse) (req0 : Request) :
    (runCall env g res response req0).hookList
      = g.hookIds ++ res.hookIds ++ req0.hookIds := by
  unfold runCall
  dsimp only
  split <;> rfl

theorem runCall_beforeTrace (env : Nat → Hook) (g : GlobalOptions) (res : ResourceConfig)
    (response : FetchResponse) (req0 : Request) :
    (runCall env g res response req0).beforeTrace
      = (runBeforeTrace env (g.hookIds ++ res.hookIds ++ req0.hookIds) req0).2 := by
  unfold runCall
  dsimp only
  split <;> rfl

theorem runCall_fetchArgs (env : Nat → Hook) (g : GlobalOptions) (res : ResourceConfig)
    (response : FetchResponse) (req0 : Request) :
    (runCall env g res response req0).fetchArgs
      = (makeFetchArgs
          (runBeforeTrace env (g.hookIds ++ res.hookIds ++ req0.hookIds) req0).1 res).1 := by
  unfold runCall
  dsimp only
  split <;> rfl

theorem runCall_finalRequest (env : Nat → Hook) (g : GlobalOptions) (res : ResourceConfig)
    (response : FetchResponse) (req0 : Request) :
    (runCall env g res response req0).finalRequest
      = injectContentType
          (runBeforeTrace env (g.hookIds ++ res.hookIds ++ req0.hookIds) req0).1 := by
  unfold runCall
  dsimp only
  split <;> rfl

/-- The signal handed to the transport is computed from the request as it
stands after the Content-Type injection, i.e. the final request. -/
theorem runCall_signal (env : Nat → Hook) (g : GlobalOptions) (res : ResourceConfig)
    (response : FetchResponse) (req0 : Request) :
    (runCall env g res response req0).fetchArgs.signal
      = transportSignal (runCall env g res response req0).finalRequest := by
  rw [runCall_fetchArgs, runCall_finalRequest]
  rfl

/-- Inversion of a successful `call`. -/
theorem call_ok (env : Nat → Hook) (baseUrl : String) (g : GlobalOptions)
    (res : ResourceConfig) (rr : RouteResult) (response : FetchResponse)
    (o : CallOutcome) (h : call env baseUrl g res rr response = .ok o) :
    ∃ req0, initialRequest baseUrl g res rr = .ok req0 ∧
      o = runCall env g res response req0 := by
  unfold call at h
  cases h0 : initialRequest baseUrl g res rr with
  | error e => rw [h0] at h; exact absurd h (by simp [Except.map])
  | ok req0 =>
    rw [h0] at h
    simp only [Except.map] at h
    exact ⟨req0, rfl, (Except.ok.inj h).symm⟩

/-- When the call produces a Result, the after trace is the capability filter
of the fixed hook list. -/
theorem runCall_afterTrace_ok (env : Nat → Hook) (g : GlobalOptions)
    (res : ResourceConfig) (response : FetchResponse) (req0 : Request) (r : Result)
    (hr : (runCall env g res response req0).result = .ok r) :
    (runCall env g res response req0).afterTrace
      = (g.hookIds ++ res.hookIds ++ req0.hookIds).filter
          (fun i => (env i).afterRequest.isSome) := by
  unfold runCall at hr ⊢
  dsimp only at hr ⊢
  cases hd : decodeResponse
      ((runBeforeTrace env (g.hookIds ++ res.hookIds ++ req0.hookIds) req0).1.decoder.getD
        Decoder.defaultJson) response with
  | error e =>
    rw [hd] at hr
    simp at hr
  | ok v =>
    exact runAfterTrace_trace env _ _ _

/-- The after trace is empty (decode failed) or the capability filter of the
fixed hook list. -/
theorem runCall_afterTrace_cases (env : Nat → Hook) (g : GlobalOptions)
    (res : ResourceConfig) (response : FetchResponse) (req0 : Request) :
    (runCall env g res response req0).afterTrace = [] ∨
    (runCall env g res response req0).afterTrace
      = (g.hookIds ++ res.hookIds ++ req0.hookIds).filter
          (fun i => (env i).afterRequest.isSome) := by
  unfold runCall
  dsimp only
  split
  · exact Or.inl rfl
  · exact Or.inr (runAfterTrace_trace env _ _ _)

/-! ## Claims -/

/-- C1: on the spec's end-to-end scenario (route "POST /users", body the
object name="a", default config) the transport IS invoked with method POST,
URL baseUrl ++ "/users" and the JSON-encoded body — but the
Content-Type: application/json header is NOT present in the headers the
transport receives.  Fetch is passed the `headers` local captured at
client.ts line 64, and the injection at lines 82-88 only replaces the
`request` binding afterwards, so the merged header never reaches the
transport (third conjunct: the post-injection request does carry it).  This
contradicts the claim and the code's own comment at line 81. -/
theorem c1_contentType_not_sent :
    callFetchArgs env0 "http://api.example.com" {} {} c1Route okResponse
        = some { url := "http://api.example.com/users", method := "POST"
                 body := some (.str "\x7b\"name\":\"a\"\x7d"), headers := []
                 signal := .noSignal } ∧
    callSentHeader env0 "http://api.example.com" {} {} c1Route okResponse
        "Content-Type" = some none ∧
    callFinalHeader env0 "http://api.example.com" {} {} c1Route okResponse
        "Content-Type" = some (some "application/json") :=
  ⟨rfl, rfl, rfl⟩

/-- C2: a structured descriptor with a defined method and a space-free route
string does NOT produce a request with that method — the call throws.  The
call site hands the supplied method to decodeRoute, whose guard
`tokens.length === 1 && method == null` fails, so the whole route string is
uppercased and rejected as an invalid verb.  (The dead
`method == null ? "GET" : method` alternative inside the guarded return
shows the guard was meant to admit a supplied method.) -/
theorem c2_structured_method_bug :
    decodeRoute (some "POST") "/users"
        = .error (.invalidMethod "/USERS" "/users") ∧
    initialRequest "http://h" {} {}
        (.structured { method := some "POST", route := "/users" })
        = .error (.invalidMethod "/USERS" "/users") :=
  ⟨rfl, rfl⟩

/-- C3 counterexample: with the default decoder and a response whose body
fails to parse, the call rejects with the RAW parse exception; the claimed
`DecodeError` wrapper of that exception is a different value, which the code
never constructs (the catch at client.ts lines 111-113 rethrows `e`
unchanged). -/
theorem c3_counterexample :
    callResultE env0 "http://h" {} {} (.stringRoute "/x") c3Response
        = some (.error (.raw "Unexpected token")) ∧
    JsError.raw "Unexpected token"
        ≠ JsError.decodeError (.raw "Unexpected token") :=
  ⟨rfl, by decide⟩

/-- C3 (amended): for every call in which the response body fails to parse
under the active decoder, the call rejects with the underlying parse
exception itself, propagated unwrapped, and no Result is produced (in
particular no after-hook runs). -/
theorem c3_decode_failure (env : Nat → Hook) (baseUrl : String) (g : GlobalOptions)
    (res : ResourceConfig) (rr : RouteResult) (response : FetchResponse)
    (o : CallOutcome) (e : JsError)
    (h : call env baseUrl g res rr response = .ok o)
    (hd : decodeResponse (o.finalRequest.decoder.getD .defaultJson) response
        = .error e) :
    o.result = .error e ∧ o.afterTrace = [] := by
  obtain ⟨req0, h0, rfl⟩ := call_ok env baseUrl g res rr response o h
  rw [runCall_finalRequest, (injectContentType_fields _).2.2.2.2.2.2.1] at hd
  unfold runCall
  dsimp only
  rw [hd]
  exact ⟨rfl, rfl⟩

/-- C3 witness: the amended theorem applied to a concrete failing response. -/
theorem c3_decode_failure_witness :
    c3Outcome.result = .error (.raw "Unexpected token") ∧
    c3Outcome.afterTrace = [] :=
  c3_decode_failure env0 "http://h" {} {} (.stringRoute "/x") c3Response
    c3Outcome (.raw "Unexpected token") rfl rfl

/-- C4 counterexample: for the route "POST /a b" the decoded path is "/a",
not the unchanged remainder "/a b" after the first space: JS
`split(" ", 2)` truncates the token list, discarding the text after the
second space. -/
theorem c4_counterexample :
    decodeRoute none "POST /a b" = .ok ⟨"POST", some "/a"⟩ ∧
    (some "/a" : Option String) ≠ some "/a b" :=
  ⟨rfl, by decide⟩

/-- C4 (amended): a route string with no space and no supplied method decodes
as GET with the unchanged route as path; otherwise the route is split at
spaces and TRUNCATED to its first two tokens — the first token, uppercased,
must be one of GET/POST/PUT/DELETE/PATCH, the path is the second token only
(text after a second space is discarded, not kept as remainder), and any
other first token fails with InvalidMethod carrying the uppercased token and
the full route string. -/
theorem c4_decodeRoute (mtd : Option String) (route : String) :
    (splitSpaces route.data [] = [route.data] → mtd = none →
        decodeRoute none route = .ok ⟨"GET", some route⟩) ∧
    (∀ t p rest, splitSpaces route.data [] = t :: p :: rest →
      (["GET", "POST", "PUT", "DELETE", "PATCH"].contains
            (jsToUpper (String.mk t)) = true →
          decodeRoute mtd route
            = .ok ⟨jsToUpper (String.mk t), some (String.mk p)⟩) ∧
      (["GET", "POST", "PUT", "DELETE", "PATCH"].contains
            (jsToUpper (String.mk t)) = false →
          decodeRoute mtd route
            = .error (.invalidMethod (jsToUpper (String.mk t)) route))) := by
  constructor
  · intro h _
    unfold decodeRoute jsSplit2
    rw [h]
    rfl
  · intro t p rest h
    have hs : jsSplit2 route = [String.mk t, String.mk p] := by
      simp [jsSplit2, h]
    constructor
    · intro hc
      unfold decodeRoute
      rw [hs]
      simp only [List.headD_cons, List.get?_cons_succ, List.get?_cons_zero]
      rw [if_neg (by simp)]
      rw [if_pos hc]
    · intro hc
      unfold decodeRoute
      rw [hs]
      simp only [List.headD_cons, List.get?_cons_succ, List.get?_cons_zero]
      rw [if_neg (by simp)]
      rw [if_neg (by rw [hc]; exact Bool.false_ne_true)]

/-- C4 witness: the amended theorem applied to the route "delete /x". -/
theorem c4_decodeRoute_witness :
    decodeRoute none "delete /x" = .ok ⟨"DELETE", some "/x"⟩ := by
  have h := ((c4_decodeRoute none "delete /x").2 "delete".data "/x".data []
      (by decide)).1 (by decide)
  have h1 : jsToUpper (String.mk "delete".data) = "DELETE" := by decide
  have h2 : String.mk "/x".data = "/x" := rfl
  rw [h1, h2] at h
  exact h

/-- C5: effective headers for a structured call are the three-layer shallow
merge global → resource → descriptor headers, later layers winning on an
exact (case-sensitive) key collision: the initial request carries exactly
that merge, and lookups resolve request-level first, then resource, then
global. -/
theorem c5_headers (baseUrl : String) (g : GlobalOptions) (res : ResourceConfig)
    (sr : StructuredRoute) (mp : MethodPath)
    (h : decodeRoute sr.method sr.route = .ok mp) :
    (initialRequest baseUrl g res (.structured sr)).toOption.map (fun r => r.headers)
        = some (mergeHeaders (mergeHeaders g.headers res.headers)
            (sr.headers.getD [])) ∧
    ∀ k, hlookup (mergeHeaders (mergeHeaders g.headers res.headers)
            (sr.headers.getD [])) k
        = ((hlookup (sr.headers.getD []) k).orElse fun _ =>
            (hlookup res.headers k).orElse fun _ => hlookup g.headers k) := by
  constructor
  · unfold initialRequest
    dsimp only
    rw [h]
    rfl
  · intro k
    simp only [hlookup_mergeHeaders]

/-- C5 witness: global A=1, resource A=2 B=3, request B=4 yield effective
headers A=2, B=4. -/
theorem c5_headers_witness :
    (initialRequest "http://h" { headers := [("A", "1")] }
        { headers := [("A", "2"), ("B", "3")] }
        (.structured { route := "/x", headers := some [("B", "4")] })).toOption.map
          (fun r => r.headers)
      = some [("A", "2"), ("B", "4")] := by
  have h := (c5_headers "http://h" { headers := [("A", "1")] }
      { headers := [("A", "2"), ("B", "3")] }
      { route := "/x", headers := some [("B", "4")] } ⟨"GET", some "/x"⟩ rfl).1
  rw [h]
  rfl

/-- C6: the hook list of a call is global ++ resource ++ request hooks, and
both phases traverse exactly that list in that order: each phase's
executed-hook trace is the in-order capability filter of the concatenation
(the after phase is not reversed), and each phase is the sequential
composition of its global part, then its resource part, then its request
part, each hook transforming its predecessor's output. -/
theorem c6_hook_order (env : Nat → Hook) (baseUrl : String) (g : GlobalOptions)
    (res : ResourceConfig) (rr : RouteResult) (response : FetchResponse)
    (req0 : Request) (o : CallOutcome)
    (h0 : initialRequest baseUrl g res rr = .ok req0)
    (h : call env baseUrl g res rr response = .ok o) :
    o.hookList = g.hookIds ++ res.hookIds ++ req0.hookIds ∧
    o.beforeTrace = (g.hookIds ++ res.hookIds ++ req0.hookIds).filter
        (fun i => (env i).beforeRequest.isSome) ∧
    (∀ r, o.result = .ok r →
        o.afterTrace = (g.hookIds ++ res.hookIds ++ req0.hookIds).filter
          (fun i => (env i).afterRequest.isSome)) ∧
    (∀ req, (runBeforeTrace env (g.hookIds ++ res.hookIds ++ req0.hookIds) req).1
        = (runBeforeTrace env req0.hookIds
            ((runBeforeTrace env res.hookIds
              ((runBeforeTrace env g.hookIds req).1)).1)).1) ∧
    (∀ fr r0, (runAfterTrace env fr (g.hookIds ++ res.hookIds ++ req0.hookIds) r0).1
        = (runAfterTrace env fr req0.hookIds
            ((runAfterTrace env fr res.hookIds
              ((runAfterTrace env fr g.hookIds r0).1)).1)).1) := by
  obtain ⟨req0', h0', rfl⟩ := call_ok env baseUrl g res rr response o h
  rw [h0] at h0'
  have hEq := Except.ok.inj h0'
  subst hEq
  refine ⟨runCall_hookList env g res response req0, ?_, ?_, ?_, ?_⟩
  · rw [runCall_beforeTrace]
    exact runBeforeTrace_trace env _ _
  · intro r hr
    exact runCall_afterTrace_ok env g res response req0 r hr
  · intro req
    rw [runBeforeTrace_fst_append env (g.hookIds ++ res.hookIds) req0.hookIds req,
        runBeforeTrace_fst_append env g.hookIds res.hookIds req]
  · intro fr r0
    rw [runAfterTrace_fst_append env fr (g.hookIds ++ res.hookIds) req0.hookIds r0,
        runAfterTrace_fst_append env fr g.hookIds res.hookIds r0]

/-- C6 witness: with a global before-hook (id 1) and a resource after-hook
(id 2), the call's hook list is their in-order concatenation and the before
phase executed exactly hook 1. -/
theorem c6_hook_order_witness :
    oH.hookList = gH.hookIds ++ resH.hookIds ++ (bareRequest "http://h").hookIds ∧
    oH.beforeTrace = [1] := by
  have h := c6_hook_order envH "http://h" gH resH (.stringRoute "/x") okResponse
      (bareRequest "http://h") oH rfl rfl
  refine ⟨h.1, ?_⟩
  rw [h.2.1]
  rfl

/-- C7 counterexample: a structured descriptor sets timeout 0, so the
effective (request-level) timeout is 0 — yet the transport receives NO
cancellation signal, because `request.timeout ?` is a JS truthiness test and
0 is falsy, where the claim requires a signal auto-triggering after the
effective timeout whenever one is set. -/
theorem c7_counterexample :
    (call env0 "http://h" { timeout := some 5000 } {} c7Route okResponse).toOption.map
        (fun o => (o.finalRequest.timeout, o.fetchArgs.signal))
      = some (some 0, .noSignal) ∧
    SignalChoice.noSignal ≠ .timeoutSig 0 :=
  ⟨rfl, by decide⟩

/-- C7 (amended): the effective timeout is the first non-absent layer in
order request → resource → global (structured descriptors; string routes
have no request level and use resource → global), and the transport signal
is the explicit abort signal when one is set on the final request, otherwise
a signal auto-triggering after the final request's timeout when that is set
and nonzero, otherwise no signal at all (a timeout of 0 is falsy and
synthesizes none). -/
theorem c7_timeout (env : Nat → Hook) (baseUrl : String) (g : GlobalOptions)
    (res : ResourceConfig) (rr : RouteResult) (response : FetchResponse)
    (o : CallOutcome) (h : call env baseUrl g res rr response = .ok o) :
    (∀ sr mp, rr = .structured sr → decodeRoute sr.method sr.route = .ok mp →
        (initialRequest baseUrl g res rr).toOption.map (fun r => r.timeout)
          = some (sr.timeout.orElse fun _ =>
              res.timeout.orElse fun _ => g.timeout)) ∧
    (∀ s mp, rr = .stringRoute s → decodeRoute none s = .ok mp →
        (initialRequest baseUrl g res rr).toOption.map (fun r => r.timeout)
          = some (res.timeout.orElse fun _ => g.timeout)) ∧
    (∀ s, o.finalRequest.abortSignal = some s →
        o.fetchArgs.signal = .explicitSig s) ∧
    (∀ t, o.finalRequest.abortSignal = none → o.finalRequest.timeout = some t →
        t ≠ 0 → o.fetchArgs.signal = .timeoutSig t) ∧
    (o.finalRequest.abortSignal = none →
        o.finalRequest.timeout = none ∨ o.finalRequest.timeout = some 0 →
        o.fetchArgs.signal = .noSignal) := by
  obtain ⟨req0, h0, rfl⟩ := call_ok env baseUrl g res rr response o h
  refine ⟨?_, ?_, ?_, ?_, ?_⟩
  · rintro sr mp rfl hmp
    unfold initialRequest
    dsimp only
    rw [hmp]
    rfl
  · rintro s mp rfl hmp
    unfold initialRequest
    dsimp only
    rw [hmp]
    rfl
  · intro s hs
    rw [runCall_signal]
    unfold transportSignal
    rw [hs]
  · intro t hn ht hne
    rw [runCall_signal]
    unfold transportSignal
    rw [hn, ht]
    simp [hne]
  · intro hn hto
    rw [runCall_signal]
    unfold transportSignal
    rw [hn]
    rcases hto with h1 | h1
    · rw [h1]
    · rw [h1]
      rfl

/-- C7 witness: with a global timeout of 7 and no abort signal, the theorem
yields a signal auto-triggering after 7ms. -/
theorem c7_timeout_witness :
    o7.fetchArgs.signal = .timeoutSig 7 := by
  have h := c7_timeout env0 "http://h" g7 {} (.stringRoute "/x") okResponse o7 rfl
  exact h.2.2.2.1 7 rfl rfl (by decide)

/-- C8 counterexample: `merge` does not replace the hooks field wholesale —
the object spread over the two hook ARRAYS merges them index-wise, so a
partial carrying hooks [3] merged onto a receiver with hooks [1, 2] yields
[3, 2]: the receiver's second hook survives. -/
theorem c8_counterexample :
    (mergeReq c8r { hookIds := some [3] }).hookIds = [3, 2] ∧
    ([3, 2] : List Nat) ≠ [3] :=
  ⟨rfl, by decide⟩

/-- C8 (amended): `r.merge(p)` returns a new Request whose headers are the
shallow union of `r`'s and `p`'s (`p` winning on key collision), whose hooks
are likewise an index-wise union (`p`'s entries override positionally and
the receiver's longer tail survives), whose remaining fields present in `p`
replace `r`'s wholesale, and the receiver is left unchanged by the call. -/
theorem c8_merge (r : Request) (p : PartialRequest) :
    (mergeOp r p).1 = r ∧
    (∀ hs k, p.headers = some hs →
        hlookup (mergeReq r p).headers k
          = (hlookup hs k).orElse fun _ => hlookup r.headers k) ∧
    (p.headers = none → (mergeReq r p).headers = r.headers) ∧
    (∀ hs i, p.hookIds = some hs →
        ((mergeReq r p).hookIds).get? i
          = (hs.get? i).orElse fun _ => r.hookIds.get? i) ∧
    (p.hookIds = none → (mergeReq r p).hookIds = r.hookIds) ∧
    (∀ v, p.method = some v → (mergeReq r p).method = some v) ∧
    (∀ v, p.path = some v → (mergeReq r p).path = some v) ∧
    (∀ v, p.baseUrl = some v → (mergeReq r p).baseUrl = v) ∧
    (∀ v, p.queryParameters = some v → (mergeReq r p).queryParameters = v) ∧
    (∀ v, p.body = some v → (mergeReq r p).body = v) ∧
    (∀ v, p.encoder = some v → (mergeReq r p).encoder = some v) ∧
    (∀ v, p.decoder = some v → (mergeReq r p).decoder = some v) ∧
    (∀ v, p.timeout = some v → (mergeReq r p).timeout = some v) ∧
    (∀ v, p.abortSignal = some v → (mergeReq r p).abortSignal = some v) := by
  refine ⟨rfl, ?_, ?_, ?_, ?_, ?_, ?_, ?_, ?_, ?_, ?_, ?_, ?_, ?_⟩
  · intro hs k hp
    simp [mergeReq, hp, hlookup_mergeHeaders]
  · intro hp
    simp [mergeReq, hp]
  · intro hs i hp
    have hh : (mergeReq r p).hookIds = mergeHookLists r.hookIds hs := by
      simp [mergeReq, hp]
    rw [hh]
    exact mergeHookLists_get r.hookIds hs i
  · intro hp
    simp [mergeReq, hp]
  · intro v hp
    simp [mergeReq, hp, Option.orElse]
  · intro v hp
    simp [mergeReq, hp, Option.orElse]
  · intro v hp
    simp [mergeReq, hp]
  · intro v hp
    simp [mergeReq, hp]
  · intro v hp
    simp [mergeReq, hp]
  · intro v hp
    simp [mergeReq, hp, Option.orElse]
  · intro v hp
    simp [mergeReq, hp, Option.orElse]
  · intro v hp
    simp [mergeReq, hp, Option.orElse]
  · intro v hp
    simp [mergeReq, hp, Option.orElse]

/-- C8 witness: merging a headers partial onto the concrete receiver leaves
the receiver unchanged, and the returned request's header lookup prefers the
partial's entry. -/
theorem c8_merge_witness :
    (mergeOp c8r { headers := some [("X", "9")] }).1 = c8r ∧
    hlookup (mergeReq c8r { headers := some [("X", "9")] }).headers "X"
      = some "9" := by
  have h := c8_merge c8r { headers := some [("X", "9")] }
  refine ⟨h.1, ?_⟩
  rw [h.2.1 [("X", "9")] "X" rfl]
  rfl

/-- C9 counterexample: the empty string is a raw-text passthrough body, yet
the transport receives NO body for it: the `body ?` truthiness test at
client.ts line 92 drops every falsy body, including "". -/
theorem c9_counterexample :
    (call env0 "http://h" {} {} c9Route okResponse).toOption.map
        (fun o => o.fetchArgs.body)
      = some none ∧
    (none : Option JsValue) ≠ some (.str "") :=
  ⟨rfl, by decide⟩

/-- C9 (amended): at the transport boundary a falsy body (absent, null,
empty string, zero, false) sends no body; a truthy passthrough body (raw
text, binary buffer, multipart form data, form-urlencoded data, byte
stream) is sent exactly as given; every other truthy body is sent as the
active encoder's output. -/
theorem c9_body (env : Nat → Hook) (baseUrl : String) (g : GlobalOptions)
    (res : ResourceConfig) (rr : RouteResult) (response : FetchResponse)
    (o : CallOutcome) (h : call env baseUrl g res rr response = .ok o) :
    (truthy o.finalRequest.body = false → o.fetchArgs.body = none) ∧
    (truthy o.finalRequest.body = true → isPassthrough o.finalRequest.body = true →
        o.fetchArgs.body = some o.finalRequest.body) ∧
    (truthy o.finalRequest.body = true → isPassthrough o.finalRequest.body = false →
        o.fetchArgs.body = some (.str (applyEncoder
          (o.finalRequest.encoder.getD .defaultJson) o.finalRequest.body))) := by
  obtain ⟨req0, h0, rfl⟩ := call_ok env baseUrl g res rr response o h
  have hb : (runCall env g res response req0).finalRequest.body
      = (runBeforeTrace env (g.hookIds ++ res.hookIds ++ req0.hookIds) req0).1.body := by
    rw [runCall_finalRequest]
    exact (injectContentType_fields _).2.2.2.2.1
  have he : (runCall env g res response req0).finalRequest.encoder
      = (runBeforeTrace env (g.hookIds ++ res.hookIds ++ req0.hookIds) req0).1.encoder := by
    rw [runCall_finalRequest]
    exact (injectContentType_fields _).2.2.2.2.2.1
  have hfb : (runCall env g res response req0).fetchArgs.body
      = transportBody
          (runBeforeTrace env (g.hookIds ++ res.hookIds ++ req0.hookIds) req0).1 := by
    rw [runCall_fetchArgs]
    rfl
  rw [hb, he, hfb]
  refine ⟨?_, ?_, ?_⟩
  · intro hf
    unfold transportBody
    rw [hf, if_neg Bool.false_ne_true]
  · intro ht hp
    unfold transportBody
    rw [ht, hp, if_pos rfl, if_pos rfl]
  · intro ht hp
    unfold transportBody
    rw [ht, hp, if_pos rfl, if_neg Bool.false_ne_true]

/-- C9 witness: a truthy raw-text body "hello" is sent exactly as given. -/
theorem c9_body_witness :
    o9.fetchArgs.body = some (JsValue.str "hello") := by
  have h := c9_body env0 "http://h" {} {}
      (.structured { route := "POST /x", body := .str "hello" }) okResponse o9 rfl
  exact (h.2.1 rfl rfl).trans rfl

/-- C10: the set of hooks executed in a call is fixed when it starts: every
hook id appearing in either phase's trace comes from the concatenation of
global, resource and initial-request hooks, so hooks that a beforeRequest
return value installs on the request are never executed in that call. -/
theorem c10_hooks_fixed (env : Nat → Hook) (baseUrl : String) (g : GlobalOptions)
    (res : ResourceConfig) (rr : RouteResult) (response : FetchResponse)
    (req0 : Request) (o : CallOutcome)
    (h0 : initialRequest baseUrl g res rr = .ok req0)
    (h : call env baseUrl g res rr response = .ok o) (i : Nat)
    (hi : i ∈ o.beforeTrace ∨ i ∈ o.afterTrace) :
    i ∈ g.hookIds ++ res.hookIds ++ req0.hookIds := by
  obtain ⟨req0', h0', rfl⟩ := call_ok env baseUrl g res rr response o h
  rw [h0] at h0'
  have hEq := Except.ok.inj h0'
  subst hEq
  rcases hi with hi | hi
  · rw [runCall_beforeTrace, runBeforeTrace_trace] at hi
    exact List.mem_of_mem_filter hi
  · rcases runCall_afterTrace_cases env g res response req0 with hc | hc
    · rw [hc] at hi
      exact absurd hi (by simp)
    · rw [hc] at hi
      exact List.mem_of_mem_filter hi

/-- C10 witness: hook 5's beforeRequest installs a brand-new hook id 99 on
the request; hook 5 is observed in the trace and the theorem places it in
the fixed list (and 99, absent from that list, can never be traced). -/
theorem c10_hooks_fixed_witness :
    5 ∈ gX.hookIds ++ ({} : ResourceConfig).hookIds
        ++ (bareRequest "http://h").hookIds :=
  c10_hooks_fixed envX "http://h" gX {} (.stringRoute "/x") okResponse
    (bareRequest "http://h") oX rfl rfl 5 (Or.inl (by decide))

end ClientTs
